import Mathlib

/-!
Verification development for the bulk-downloader-for-reddit core:
a shallow embedding of `bdfr/site_downloaders/download_factory.py` and
`bdfr/downloader.py`, with theorems checking the natural-language
specification against the embedded code.

Strings are modelled as `List Char` at the algorithmic level (with `String`
wrappers at the interface).  Python's `\w` character class is modelled as
ASCII alphanumerics plus underscore, `\s` as ASCII whitespace; these classes
only matter pointwise and the modelled URLs are ASCII.
-/

namespace BDFR

/-! ## URL splitting (model of `urllib.parse.urlsplit`, netloc and path only)

`DownloadFactory.sanitise_url` keeps `urlsplit(url).netloc + urlsplit(url).path`.
We model the CPython parse: optional scheme (`[A-Za-z][A-Za-z0-9+-.]*:`),
then a netloc after a literal `//` running up to the first of `/?#`, then the
fragment is everything after the first `#` and the query everything after the
first `?` of what remains; netloc and path are what is left. -/

/-- Characters allowed in a URL scheme after the first letter. -/
def schemeChar (c : Char) : Bool :=
  c.isAlpha || c.isDigit || c == '+' || c == '-' || c == '.'

/-- Scan for `:` preceded only by scheme characters; return the remainder
after the `:` when found. -/
def scanScheme : List Char → Option (List Char)
  | [] => none
  | c :: rest =>
    if c == ':' then some rest
    else if schemeChar c then scanScheme rest
    else none

/-- Drop a leading `scheme:` when present (first char must be a letter). -/
def splitScheme (s : List Char) : List Char :=
  match s with
  | [] => []
  | c :: rest =>
    if c.isAlpha then
      match scanScheme rest with
      | some after => after
      | none => c :: rest
    else c :: rest

/-- Characters that do not terminate a netloc (CPython `_splitnetloc`
stops at the first of `/?#`). -/
def netChar (c : Char) : Bool := c != '/' && c != '?' && c != '#'

/-- Characters that are neither `?` nor `#`: the part of a URL before its
query string and fragment is its longest `notQF` prefix. -/
def notQF (c : Char) : Bool := c != '?' && c != '#'

/-- Drop the fragment (everything from the first `#`) and then the query
(everything from the first `?`), as CPython does after netloc splitting. -/
def stripFragQ (l : List Char) : List Char :=
  (l.takeWhile (· != '#')).takeWhile (· != '?')

/-- The `(netloc, path)` pair of a URL per `urllib.parse.urlsplit`. -/
def netlocPath (url : List Char) : List Char × List Char :=
  let u1 := splitScheme url
  if u1.take 2 = ['/', '/'] then
    let w := u1.drop 2
    (w.takeWhile netChar, stripFragQ (w.dropWhile netChar))
  else ([], stripFragQ u1)

/-! ## `DownloadFactory.sanitise_url`

After `netloc + path`, the source runs
`re.sub(re.compile(r"\s*(www\.?)?"), "", split_url)`.  `re.sub` replaces every
non-overlapping occurrence, scanning left to right; at each position the
(greedy) pattern consumes a run of whitespace and then an optional `www.` or
`www`; an empty match keeps the character and advances. -/

/-- When `l` begins with `www.` or `www`, the remainder after that token. -/
def wwwRest? (l : List Char) : Option (List Char) :=
  if l.take 3 = ['w', 'w', 'w'] then
    if (l.drop 3).head? = some '.' then some (l.drop 3).tail else some (l.drop 3)
  else none

/-- `re.sub(r"\s*(www\.?)?", "", s)`, fuelled scanner: remove every
whitespace run together with an immediately following `www.`/`www` token,
and every bare `www.`/`www` token, scanning left to right.  Every recursive
call removes at least one character, so fuel `s.length` (as supplied by
`subWww`) never runs out. -/
def subWwwGo : Nat → List Char → List Char
  | 0, s => s
  | _ + 1, [] => []
  | fuel + 1, c :: rest =>
    if c.isWhitespace then
      let r := rest.dropWhile Char.isWhitespace
      subWwwGo fuel ((wwwRest? r).getD r)
    else
      match wwwRest? (c :: rest) with
      | some r => subWwwGo fuel r
      | none => c :: subWwwGo fuel rest

/-- `re.sub(r"\s*(www\.?)?", "", s)`. -/
def subWww (s : List Char) : List Char := subWwwGo s.length s

/-- `DownloadFactory.sanitise_url` on `List Char`. -/
def sanitiseList (url : List Char) : List Char :=
  let np := netlocPath url
  subWww (np.1 ++ np.2)

/-- `DownloadFactory.sanitise_url`. -/
def sanitise_url (url : String) : String := ⟨sanitiseList url.data⟩

/-! ## `DownloadFactory.pull_lever` and its two regex rules -/

/-- Python `\w` (ASCII model): letters, digits, underscore. -/
def isWordChar (c : Char) : Bool := c.isAlphanum || c == '_'

/-- Characters of the `[\w;&=]` class in the query part of the file rule. -/
def isQueryChar (c : Char) : Bool := isWordChar c || c == ';' || c == '&' || c == '='

/-- `s` ends in `.` followed by exactly `n` word characters, with a `/`
somewhere before that dot (the `.*​/.*\.\w{n}$` shape). -/
def extCase (s : List Char) (n : Nat) : Bool :=
  let r := s.reverse
  decide ((r.take n).length = n) && (r.take n).all isWordChar &&
    ((r.drop n).head? == some '.') && (r.drop (n + 1)).contains '/'

/-- `s` matches `.*​/.*\.\w{3,4}$`. -/
def matchesFileExt (s : List Char) : Bool := extCase s 3 || extCase s 4

/-- Split `s` at its last `?` (the only `?` the regex `\?[\w;&=]*$` can
consume): prefix before it and suffix after it. -/
def splitLastQ (s : List Char) : Option (List Char × List Char) :=
  if s.contains '?' then
    some (((s.reverse.dropWhile (· != '?')).tail).reverse,
          (s.reverse.takeWhile (· != '?')).reverse)
  else none

/-- The first rule of `pull_lever`:
`re.match(r".*/.*\.\w{3,4}(\?[\w;&=]*)?$", s)`. -/
def matchesFilePattern (s : List Char) : Bool :=
  matchesFileExt s ||
    (match splitLastQ s with
     | some (pre, post) => post.all isQueryChar && matchesFileExt pre
     | none => false)

/-- The web-page extension tuple of `DownloadFactory.is_web_resource`. -/
def webExtensionsL : List (List Char) :=
  ["asp", "aspx", "cfm", "cfml", "css", "htm", "html", "js", "php", "php3",
   "xhtml"].map String.data

/-- `s` ends (case-insensitively) in `.` ++ `ext` with a `/` before the dot. -/
def endsDotExtCI (s : List Char) (ext : List Char) : Bool :=
  let r := s.reverse
  ((r.take ext.length).map Char.toLower == ext.reverse) &&
    ((r.drop ext.length).head? == some '.') &&
    (r.drop (ext.length + 1)).contains '/'

/-- `DownloadFactory.is_web_resource`:
`re.match(rf'(?i).*/.*\.({"|".join(web_extensions)})$', url)`. -/
def is_web_resource (s : List Char) : Bool :=
  webExtensionsL.any (fun e => endsDotExtCI s e)

/-- The exception model.  In `bdfr.exceptions` (not under `src/`; hierarchy
taken from the spec's error taxonomy, §7): `BulkDownloaderException` is the
base class; `SiteDownloaderError` subclasses it; `NotADownloadableLinkError`
subclasses `SiteDownloaderError`.  `OSError` is unrelated to that hierarchy. -/
inductive Exn where
  | notADownloadableLink
  | siteDownloader (msg : String)
  | bulkDownloader (msg : String)
  | osError (msg : String)
  | otherExn (msg : String)
deriving DecidableEq, Repr

/-- Membership in the `errors.BulkDownloaderException` class. -/
def isBulkClass : Exn → Bool
  | .notADownloadableLink => true
  | .siteDownloader _ => true
  | .bulkDownloader _ => true
  | _ => false

/-- Membership in the `errors.SiteDownloaderError` class. -/
def isSiteClass : Exn → Bool
  | .notADownloadableLink => true
  | .siteDownloader _ => true
  | _ => false

/-- Membership in the `OSError` class. -/
def isOSClass : Exn → Bool
  | .osError _ => true
  | _ => false

/-- The only strategy `pull_lever` can return in this source: `SelfPost`
(the `Direct` return is commented out and replaced by a raise). -/
inductive Strategy where
  | selfPost
deriving DecidableEq, Repr

/-- `__name__.lower()` of the strategy class. -/
def stratName : Strategy → String
  | .selfPost => "selfpost"

/-- The pattern of the second rule, `re.match(r"reddit\.com/r/", s)`:
a prefix match. -/
def redditSelfPat : List Char := "reddit.com/r/".data

/-- `DownloadFactory.pull_lever`.  Rule order is the source's: the
direct-file shape (raising, since `return Direct` is commented out) is
tested before the reddit self-post prefix. -/
def pull_lever (url : String) : Except Exn Strategy :=
  let s := sanitiseList url.data
  if matchesFilePattern s && !(is_web_resource s) then
    .error .notADownloadableLink
  else if redditSelfPat.isPrefixOf s then .ok .selfPost
  else .error .notADownloadableLink

/-- The claim-side transformation for C10: the URL with its query string and
fragment removed, i.e. truncated at the first `?` or `#`. -/
def stripQueryFragment (url : String) : String :=
  ⟨url.data.takeWhile notQF⟩

instance {ε α : Type} [DecidableEq ε] [DecidableEq α] :
    DecidableEq (Except ε α) := fun a b =>
  match a, b with
  | .error e, .error e' => decidable_of_iff (e = e') (by simp)
  | .ok v, .ok v' => decidable_of_iff (v = v') (by simp)
  | .error _, .ok _ => isFalse (by simp)
  | .ok _, .error _ => isFalse (by simp)

example : sanitise_url "https://www.reddit.com/r/pics/comments/ab/cat.jpg"
    = "reddit.com/r/pics/comments/ab/cat.jpg" := by decide
example : pull_lever "https://www.reddit.com/r/pics/comments/ab/cat.jpg"
    = .error .notADownloadableLink := by decide
example : pull_lever "https://reddit.com/r/test/comments/abc"
    = .ok .selfPost := by decide
example : pull_lever "https://reddit.com/r/test/wiki/index.html"
    = .ok .selfPost := by decide
example : pull_lever "https://example.com/index.html"
    = .error .notADownloadableLink := by decide
example : pull_lever "https://example.com/file.jpg?a=1"
    = .error .notADownloadableLink := by decide

/-! ## `downloader.py`: data model

The praw `Submission` fields the core reads.  `upvoteRat` models the float
`upvote_ratio` as a rational; `isSubmissionType` models
`isinstance(submission, praw.models.Submission)`. -/

structure Submission where
  id : String
  subreddit : String
  author : Option String
  score : Int
  upvoteRat : Rat
  createdUtc : Nat
  url : String
  isSubmissionType : Bool
deriving DecidableEq, Repr

/-- The configuration surface `_download_submission` reads.  Numeric options
are `Option`s; Python uses truthiness, so a configured `0` is as inactive as
`None` and the checks below test the value against `0` explicitly. -/
structure Args where
  excludedSubmissionIds : List String
  skipSubreddit : List String
  ignoreUser : List String
  minScore : Option Int
  maxScore : Option Int
  minScoreRat : Option Rat
  maxScoreRat : Option Rat
  disableModule : List String
  noDupes : Bool
  makeHardLinks : Bool
deriving DecidableEq, Repr

/-- One rejection reason per filter branch of `_download_submission`. -/
inductive RejectReason where
  | excluded
  | skippedSubreddit
  | ignoredUser
  | scoreBelowMin
  | scoreAboveMax
  | scoreRatioOut
  | notSubmissionType
  | urlFiltered
deriving DecidableEq, Repr

/-- `submission.id in self.excluded_submission_ids`. -/
def checkExcluded (args : Args) (sub : Submission) : Bool :=
  args.excludedSubmissionIds.contains sub.id

/-- `str.lower()` (ASCII model), char-wise. -/
def lowerStr (s : String) : String := ⟨s.data.map Char.toLower⟩

/-- `submission.subreddit.display_name.lower() in self.args.skip_subreddit`. -/
def checkSkipSub (args : Args) (sub : Submission) : Bool :=
  args.skipSubreddit.contains (lowerStr sub.subreddit)

/-- `(submission.author and submission.author.name in self.args.ignore_user)
or (submission.author is None and "DELETED" in self.args.ignore_user)`. -/
def checkIgnoreUser (args : Args) (sub : Submission) : Bool :=
  match sub.author with
  | some a => args.ignoreUser.contains a
  | none => args.ignoreUser.contains "DELETED"

/-- `self.args.min_score and submission.score < self.args.min_score`. -/
def checkMinScore (args : Args) (sub : Submission) : Bool :=
  match args.minScore with
  | some m => decide (m ≠ 0) && decide (sub.score < m)
  | none => false

/-- `self.args.max_score and self.args.max_score < submission.score`. -/
def checkMaxScore (args : Args) (sub : Submission) : Bool :=
  match args.maxScore with
  | some m => decide (m ≠ 0) && decide (m < sub.score)
  | none => false

/-- `(self.args.min_score_ratio and submission.upvote_ratio < ...) or
(self.args.max_score_ratio and ... < submission.upvote_ratio)`. -/
def checkScoreRatioOut (args : Args) (sub : Submission) : Bool :=
  (match args.minScoreRat with
   | some m => decide (m ≠ 0) && decide (sub.upvoteRat < m)
   | none => false) ||
  (match args.maxScoreRat with
   | some m => decide (m ≠ 0) && decide (m < sub.upvoteRat)
   | none => false)

/-- `not isinstance(submission, praw.models.Submission)`. -/
def checkNotSubmission (sub : Submission) : Bool := !sub.isSubmissionType

/-- `not self.download_filter.check_url(submission.url)`. -/
def checkUrlFiltered (chkUrl : String → Bool) (sub : Submission) : Bool :=
  !(chkUrl sub.url)

/-- The filter chain of `_download_submission` (lines 101-135): the ordered
`elif` cascade; `none` means the submission passed every check. -/
def filter_submission (args : Args) (chkUrl : String → Bool)
    (sub : Submission) : Option RejectReason :=
  if checkExcluded args sub then some .excluded
  else if checkSkipSub args sub then some .skippedSubreddit
  else if checkIgnoreUser args sub then some .ignoredUser
  else if checkMinScore args sub then some .scoreBelowMin
  else if checkMaxScore args sub then some .scoreAboveMax
  else if checkScoreRatioOut args sub then some .scoreRatioOut
  else if checkNotSubmission sub then some .notSubmissionType
  else if checkUrlFiltered chkUrl sub then some .urlFiltered
  else none

/-- The same checks as an ordered list of (fires?, reason) pairs, for the
first-failing-check-wins characterisation. -/
def filterChecks (args : Args) (chkUrl : String → Bool)
    (sub : Submission) : List (Bool × RejectReason) :=
  [(checkExcluded args sub, .excluded),
   (checkSkipSub args sub, .skippedSubreddit),
   (checkIgnoreUser args sub, .ignoredUser),
   (checkMinScore args sub, .scoreBelowMin),
   (checkMaxScore args sub, .scoreAboveMax),
   (checkScoreRatioOut args sub, .scoreRatioOut),
   (checkNotSubmission sub, .notSubmissionType),
   (checkUrlFiltered chkUrl sub, .urlFiltered)]

/-! ## `downloader.py`: the per-resource committer

One `(destination, res)` pair of the resource loop, together with the
outcome of each of its fallible external operations: `fetch` is the result
of `res.download(...)` (either the content bytes or the exception it
raised); `mkdirExn`, `writeExn`, `linkExn`, `utimeExn` are the exceptions
(if any) raised by `destination.parent.mkdir`, the `open/write`, `link_to`
and `os.utime` calls.  A failed write is modelled as leaving no file. -/

structure ResTask where
  destination : String
  resUrl : String
  fetch : Except Exn (List Nat)
  mkdirExn : Option Exn
  writeExn : Option Exn
  linkExn : Option Exn
  utimeExn : Option Exn
deriving DecidableEq, Repr

/-- Downloader state: the set of on-disk paths and `self.master_hash_list`
(hash → path, Python dict modelled as an association list with in-place
update). -/
structure DState where
  disk : List String
  hashIndex : List (String × String)
deriving DecidableEq, Repr

/-- Dict lookup. -/
def lookupA (m : List (String × String)) (k : String) : Option String :=
  match m with
  | [] => none
  | (k', v) :: t => if k' == k then some v else lookupA t k

/-- Dict assignment `m[k] = v`: replace in place, or append. -/
def insertA (m : List (String × String)) (k v : String) :
    List (String × String) :=
  match m with
  | [] => [(k, v)]
  | (k', v') :: t => if k' == k then (k, v) :: t else (k', v') :: insertA t k v

/-- Add a path to the on-disk set. -/
def insertP (d : List String) (p : String) : List String :=
  if p ∈ d then d else p :: d

/-- The observable outcome of one resource, abstracting the log lines. -/
inductive Outcome where
  | skippedExists
  | skippedFiltered
  | failedFetch
  | skippedDuplicate
  | linked
  | failedWrite
  | written
deriving DecidableEq, Repr

/-- The control effect of one iteration of the resource loop:
`toNext` is falling through or `continue`, `stopLoop` is `return`
(abandoning the submission's remaining resources), `raised` is an
uncaught exception propagating out of `_download_submission`. -/
inductive StepResult where
  | toNext (o : Outcome) (s : DState)
  | stopLoop (o : Outcome) (s : DState)
  | raised (e : Exn) (s : DState)
deriving DecidableEq, Repr

/-- Lines 181-192: the write, the unguarded `os.utime`, and the hash-index
insertion.  Only `OSError` is caught at the write; `os.utime` is outside
any `try`, and when it raises, the file is on disk but the hash-index
insertion of line 191 has not happened. -/
def writePhase (t : ResTask) (s : DState) (h : String) : StepResult :=
  match t.writeExn with
  | some e => if isOSClass e then .stopLoop .failedWrite s else .raised e s
  | none =>
    match t.utimeExn with
    | some e => .raised e ⟨insertP s.disk t.destination, s.hashIndex⟩
    | none =>
      .toNext .written
        ⟨insertP s.disk t.destination, insertA s.hashIndex h t.destination⟩

/-- Lines 154-192: one iteration of the resource loop of
`_download_submission`. -/
def download_resource (args : Args) (chkRes : ResTask → Bool)
    (hashFn : List Nat → String) (t : ResTask) (s : DState) : StepResult :=
  if t.destination ∈ s.disk then .toNext .skippedExists s
  else if !(chkRes t) then .toNext .skippedFiltered s
  else
    match t.fetch with
    | .error e => if isBulkClass e then .stopLoop .failedFetch s else .raised e s
    | .ok content =>
      let h := hashFn content
      match t.mkdirExn with
      | some e => .raised e s
      | none =>
        if (lookupA s.hashIndex h).isSome then
          if args.noDupes then .stopLoop .skippedDuplicate s
          else if args.makeHardLinks then
            match t.linkExn with
            | some e => .raised e s
            | none => .stopLoop .linked ⟨insertP s.disk t.destination, s.hashIndex⟩
          else writePhase t s h
        else writePhase t s h

/-- How the resource loop ended. -/
inductive LoopEnd where
  | ranAll
  | cutShort
  | blew (e : Exn)
deriving DecidableEq, Repr

/-- Result of running the whole resource loop. -/
structure RunOut where
  trace : List Outcome
  state : DState
  ending : LoopEnd
deriving DecidableEq, Repr

/-- The resource loop of `_download_submission` over all formatted
`(destination, resource)` pairs. -/
def processResources (args : Args) (chkRes : ResTask → Bool)
    (hashFn : List Nat → String) : List ResTask → DState → RunOut
  | [], s => ⟨[], s, .ranAll⟩
  | t :: ts, s =>
    match download_resource args chkRes hashFn t s with
    | .toNext o s' =>
      let rest := processResources args chkRes hashFn ts s'
      ⟨o :: rest.trace, rest.state, rest.ending⟩
    | .stopLoop o s' => ⟨[o], s', .cutShort⟩
    | .raised e s' => ⟨[], s', .blew e⟩

/-- The external collaborators of one submission: the two download-filter
predicates, the combined result of `downloader.find_resources` plus
`format_resource_paths` (either the task list or the exception raised),
and the content-hash function. -/
structure SubEnv where
  chkUrl : String → Bool
  chkRes : ResTask → Bool
  findResources : Except Exn (List ResTask)
  hashFn : List Nat → String

/-- Result of `_download_submission`: a filter rejection, one of the three
caught-and-skipped error cases, a processed resource loop (`stoppedEarly`
records an early `return`), or an uncaught exception propagating out. -/
inductive SubResult where
  | filtered (r : RejectReason)
  | noStrategy
  | disabledModule
  | extractionFailed
  | processed (trace : List Outcome) (stoppedEarly : Bool) (s : DState)
  | raised (e : Exn) (s : DState)
deriving DecidableEq, Repr

/-- `RedditDownloader._download_submission` (lines 100-193).  `pull_lever`
raises only `NotADownloadableLinkError`, which is exactly what the
`except errors.NotADownloadableLinkError` handler catches; the
`find_resources` handler catches `errors.SiteDownloaderError`. -/
def download_submission (args : Args) (env : SubEnv) (sub : Submission)
    (s : DState) : SubResult :=
  match filter_submission args env.chkUrl sub with
  | some r => .filtered r
  | none =>
    match pull_lever sub.url with
    | .error _ => .noStrategy
    | .ok st =>
      if args.disableModule.contains (stratName st) then .disabledModule
      else
        match env.findResources with
        | .error e => if isSiteClass e then .extractionFailed else .raised e s
        | .ok tasks =>
          let out := processResources args env.chkRes env.hashFn tasks s
          match out.ending with
          | .ranAll => .processed out.trace false out.state
          | .cutShort => .processed out.trace true out.state
          | .blew e => .raised e out.state

/-- `RedditDownloader.download` (lines 95-98): the run loop, with no
`try`/`except` of its own — an exception leaving `_download_submission`
aborts the entire run. -/
def runDownload (args : Args) :
    List (Submission × SubEnv) → DState → Except (Exn × DState) DState
  | [], s => .ok s
  | (sub, env) :: rest, s =>
    match download_submission args env sub s with
    | .raised e s' => .error (e, s')
    | .processed _ _ s' => runDownload args rest s'
    | _ => runDownload args rest s

/-! ## `downloader.py`: the existing-file scanner -/

/-- The dict comprehension of `scan_existing_files`:
`{res[1]: res[0] for res in results}`, iterating `results = pool.map(...)`
(which preserves the file enumeration order) left to right. -/
def scanBuild (results : List (String × String)) : List (String × String) :=
  results.foldl (fun m r => insertA m r.2 r.1) []

/-- `RedditDownloader.scan_existing_files` (lines 195-207):
`_calc_hash` streams each file in 1 MiB chunks into one digest, which
equals hashing the whole content; `contents` gives each file's bytes. -/
def scan_existing_files (files : List String) (contents : String → List Nat)
    (hashFn : List Nat → String) : List (String × String) :=
  scanBuild (files.map (fun p => (p, hashFn (contents p))))

/-- Spec-side comparison function for C9, following the spec's words: the
path recorded for a hash is the one of the *last* pair in enumeration
order carrying that hash. -/
def lastHashPath (l : List (String × String)) (k : String) : Option String :=
  match l with
  | [] => none
  | (p, h) :: t =>
    match lastHashPath t k with
    | some q => some q
    | none => if h == k then some p else none

/-! ## Association-list lemmas -/

theorem lookupA_insertA : ∀ (m : List (String × String)) (k v k' : String),
    lookupA (insertA m k v) k' = if k = k' then some v else lookupA m k' := by
  intro m
  induction m with
  | nil =>
    intro k v k'
    by_cases h : k = k' <;> simp [insertA, lookupA, h]
  | cons p t ih =>
    intro k v k'
    obtain ⟨k0, v0⟩ := p
    by_cases h0 : k0 = k
    · subst h0
      by_cases h1 : k0 = k' <;> simp [insertA, lookupA, h1]
    · by_cases h1 : k0 = k'
      · subst h1
        simp [insertA, lookupA, h0, Ne.symm h0]
      · simp [insertA, lookupA, h0, h1, ih]

/-- The keys of an association list. -/
def keysA : List (String × String) → List String
  | [] => []
  | (k, _) :: t => k :: keysA t

theorem mem_keysA_insertA {x : String} :
    ∀ {m : List (String × String)} {k v : String},
      x ∈ keysA (insertA m k v) → x ∈ keysA m ∨ x = k := by
  intro m
  induction m with
  | nil =>
    intro k v h
    simp [insertA, keysA] at h
    exact Or.inr h
  | cons p t ih =>
    intro k v h
    obtain ⟨k0, v0⟩ := p
    by_cases h0 : k0 = k
    · subst h0
      simp only [insertA, beq_self_eq_true, if_pos, keysA] at h
      rcases List.mem_cons.mp h with h | h
      · exact Or.inr h
      · exact Or.inl (List.mem_cons_of_mem _ h)
    · have hb : (k0 == k) = false := by simp [h0]
      simp only [insertA, hb, Bool.false_eq_true, if_neg, keysA] at h
      rcases List.mem_cons.mp h with h | h
      · exact Or.inl (h ▸ List.mem_cons_self _ _)
      · rcases ih h with h' | h'
        · exact Or.inl (List.mem_cons_of_mem _ h')
        · exact Or.inr h'

theorem nodup_keysA_insertA :
    ∀ {m : List (String × String)} {k v : String},
      (keysA m).Nodup → (keysA (insertA m k v)).Nodup := by
  intro m
  induction m with
  | nil => intro k v _; simp [insertA, keysA]
  | cons p t ih =>
    intro k v h
    obtain ⟨k0, v0⟩ := p
    rw [keysA, List.nodup_cons] at h
    by_cases h0 : k0 = k
    · subst h0
      simp only [insertA, beq_self_eq_true, if_pos, keysA]
      exact List.nodup_cons.mpr h
    · have hb : (k0 == k) = false := by simp [h0]
      simp only [insertA, hb, Bool.false_eq_true, if_neg, keysA]
      refine List.nodup_cons.mpr ⟨fun hmem => ?_, ih h.2⟩
      rcases mem_keysA_insertA hmem with h' | h'
      · exact h.1 h'
      · exact h0 h'

theorem lookupA_scanfold :
    ∀ (l acc : List (String × String)) (k : String),
      lookupA (l.foldl (fun m r => insertA m r.2 r.1) acc) k =
        match lastHashPath l k with
        | some p => some p
        | none => lookupA acc k := by
  intro l
  induction l with
  | nil => intro acc k; rfl
  | cons r t ih =>
    intro acc k
    obtain ⟨p, h⟩ := r
    simp only [List.foldl_cons]
    rw [ih]
    cases hlt : lastHashPath t k with
    | some q => simp [lastHashPath, hlt]
    | none =>
      rw [lookupA_insertA]
      by_cases hk : h = k <;> simp [lastHashPath, hlt, hk]

theorem nodup_keysA_scanfold :
    ∀ (l acc : List (String × String)),
      (keysA acc).Nodup →
        (keysA (l.foldl (fun m r => insertA m r.2 r.1) acc)).Nodup := by
  intro l
  induction l with
  | nil => intro acc h; exact h
  | cons r t ih =>
    intro acc h
    simp only [List.foldl_cons]
    exact ih _ (nodup_keysA_insertA h)

theorem lastHashPath_map_mem {f : String → String} :
    ∀ (files : List String) (k p : String),
      lastHashPath (files.map fun q => (q, f q)) k = some p → p ∈ files := by
  intro files
  induction files with
  | nil => intro k p h; simp [lastHashPath] at h
  | cons a t ih =>
    intro k p h
    simp only [List.map_cons, lastHashPath] at h
    cases hlt : lastHashPath (t.map fun q => (q, f q)) k with
    | some q =>
      rw [hlt] at h
      injection h with h'
      cases h'
      exact List.mem_cons_of_mem _ (ih k _ hlt)
    | none =>
      rw [hlt] at h
      by_cases hk : f a = k
      · simp [hk] at h
        cases h
        exact List.mem_cons_self _ _
      · simp [hk] at h

/-! ## Claim theorems -/

/-- Claim C9: for every directory tree scanned by the Existing-File Scanner,
the resulting Hash Index has exactly one entry per distinct content hash
(keys are duplicate-free and a hash maps to a path exactly when some scanned
file hashes to it); when several files hash equal, the recorded path is the
one that comes later in enumeration order; and every recorded path is one of
the scanned (existing) files, so no content is lost. -/
theorem c9_scan_last_wins (files : List String) (contents : String → List Nat)
    (hashFn : List Nat → String) :
    (∀ k, lookupA (scan_existing_files files contents hashFn) k =
        lastHashPath (files.map (fun p => (p, hashFn (contents p)))) k)
    ∧ (keysA (scan_existing_files files contents hashFn)).Nodup
    ∧ (∀ k p, lookupA (scan_existing_files files contents hashFn) k = some p →
        p ∈ files) := by
  refine ⟨fun k => ?_, ?_, fun k p h => ?_⟩
  · rw [scan_existing_files, scanBuild, lookupA_scanfold]
    cases lastHashPath (files.map fun p => (p, hashFn (contents p))) k <;> rfl
  · exact nodup_keysA_scanfold _ _ (by simp [keysA])
  · rw [scan_existing_files, scanBuild, lookupA_scanfold] at h
    cases hlt : lastHashPath (files.map fun q => (q, hashFn (contents q))) k with
    | some q =>
      rw [hlt] at h
      injection h with h'
      cases h'
      exact lastHashPath_map_mem files k _ hlt
    | none =>
      rw [hlt] at h
      simp [lookupA] at h

theorem c9_scan_last_wins_witness :
    "b" ∈ (["a", "b"] : List String) :=
  (c9_scan_last_wins ["a", "b"] (fun _ => [1]) (fun _ => "H")).2.2 "H" "b"
    (by decide)

/-- Claim C8: the submission filter pipeline evaluates its checks in the
specified order (exclusion id, skip-subreddit, ignore-author with a null
author matching the `DELETED` sentinel, min score, max score, score-ratio
bounds, type check, URL filter); the first firing check yields the
rejection, i.e. the chain equals a first-match search over the ordered
check list; and a rejected submission yields `filtered r` for every
extraction environment and state, so dispatch is never consulted. -/
theorem c8_filter_order_and_no_dispatch (args : Args) (sub : Submission) :
    (∀ chkUrl : String → Bool,
      filter_submission args chkUrl sub
        = ((filterChecks args chkUrl sub).find? Prod.fst).map Prod.snd)
    ∧ (∀ (env : SubEnv) (s : DState) (r : RejectReason),
        filter_submission args env.chkUrl sub = some r →
          download_submission args env sub s = .filtered r) := by
  constructor
  · intro chkUrl
    simp only [filter_submission, filterChecks]
    cases checkExcluded args sub <;>
      cases checkSkipSub args sub <;>
        cases checkIgnoreUser args sub <;>
          cases checkMinScore args sub <;>
            cases checkMaxScore args sub <;>
              cases checkScoreRatioOut args sub <;>
                cases checkNotSubmission sub <;>
                  cases checkUrlFiltered chkUrl sub <;>
                    rfl
  · intro env s r h
    simp [download_submission, h]

/-- A submission with score 5 against a configured minimum score of 10:
the spec's rejection scenario. -/
def subScore5 : Submission :=
  ⟨"abc123", "test", some "alice", 5, 1, 0,
   "https://reddit.com/r/test/comments/abc123", true⟩

/-- Arguments with `min_score = 10` and everything else inactive. -/
def argsMin10 : Args := ⟨[], [], [], some 10, none, none, none, [], false, false⟩

/-- A trivial environment: permissive filters, no resources. -/
def envTriv : SubEnv := ⟨fun _ => true, fun _ => true, .ok [], fun _ => "h0"⟩

theorem c8_filter_order_and_no_dispatch_witness :
    download_submission argsMin10 envTriv subScore5 ⟨[], []⟩
      = .filtered .scoreBelowMin :=
  (c8_filter_order_and_no_dispatch argsMin10 subScore5).2 envTriv ⟨[], []⟩
    .scoreBelowMin (by decide)

/-- Arguments with every option inactive and both duplicate policies off. -/
def argsPlain : Args := ⟨[], [], [], none, none, none, none, [], false, false⟩

/-- A permissive resource-level download filter. -/
def chkTrue : ResTask → Bool := fun _ => true

/-- A constant content-hash function for concrete runs. -/
def hashH : List Nat → String := fun _ => "H"

/-- A resource whose destination write raises an `OSError`. -/
def taskWriteFail : ResTask :=
  ⟨"d1", "u1", .ok [1], none, some (.osError "disk full"), none, none⟩

/-- A resource whose fetch raises a `BulkDownloaderException`. -/
def taskFetchFail : ResTask :=
  ⟨"d3", "u3", .error (.bulkDownloader "timed out"), none, none, none, none⟩

/-- A resource that downloads and writes cleanly to `d2`. -/
def taskClean : ResTask := ⟨"d2", "u2", .ok [2], none, none, none, none⟩

/-- Claim C2 is false on the code: after a write `OSError` on the first
resource, the loop `return`s — the trace records only the failed resource,
the loop is cut short, and the sibling resource `d2` (which succeeds when
processed alone) is never written. -/
theorem c2_counterexample :
    processResources argsPlain chkTrue hashH [taskWriteFail, taskClean] ⟨[], []⟩
        = ⟨[.failedWrite], ⟨[], []⟩, .cutShort⟩
    ∧ (processResources argsPlain chkTrue hashH [taskWriteFail, taskClean]
        ⟨[], []⟩).state.disk.contains "d2" = false
    ∧ processResources argsPlain chkTrue hashH [taskClean] ⟨[], []⟩
        = ⟨[.written], ⟨["d2"], [("H", "d2")]⟩, .ranAll⟩ := by
  refine ⟨by decide, by decide, by decide⟩

/-- Claim C2 (amended): when writing one resource's bytes fails with an I/O
error, that resource's outcome is `failedWrite` and the submission's
remaining resources are abandoned (the loop is cut short exactly like a
fetch failure, with no uncaught exception, so the run continues with the
next submission); the state is unchanged, so only that resource failed. -/
theorem c2_write_failure_aborts_submission
    (args : Args) (chkRes : ResTask → Bool) (hashFn : List Nat → String)
    (t : ResTask) (ts : List ResTask) (s : DState) (e : Exn) (b : List Nat)
    (hdisk : t.destination ∉ s.disk)
    (hchk : chkRes t = true)
    (hfetch : t.fetch = .ok b)
    (hmk : t.mkdirExn = none)
    (hdup : (lookupA s.hashIndex (hashFn b)).isSome = false)
    (hw : t.writeExn = some e)
    (hos : isOSClass e = true) :
    processResources args chkRes hashFn (t :: ts) s
      = ⟨[.failedWrite], s, .cutShort⟩ := by
  simp [processResources, download_resource, writePhase, hdisk, hchk, hfetch,
    hmk, hdup, hw, hos]

theorem c2_write_failure_aborts_submission_witness :
    processResources argsPlain chkTrue hashH [taskWriteFail, taskClean]
        ⟨["x"], []⟩
      = ⟨[.failedWrite], ⟨["x"], []⟩, .cutShort⟩ :=
  c2_write_failure_aborts_submission argsPlain chkTrue hashH taskWriteFail
    [taskClean] ⟨["x"], []⟩ (.osError "disk full") [1] (by decide) (by decide)
    (by decide) (by decide) (by decide) (by decide) (by decide)

/-- Claim C3 is false on the code as stated: after a fetch failure on the
first resource, the loop `return`s — remaining resources of the submission
are abandoned, not continued with. -/
theorem c3_counterexample :
    processResources argsPlain chkTrue hashH [taskFetchFail, taskClean] ⟨[], []⟩
        = ⟨[.failedFetch], ⟨[], []⟩, .cutShort⟩
    ∧ (processResources argsPlain chkTrue hashH [taskFetchFail, taskClean]
        ⟨[], []⟩).state.disk.contains "d2" = false := by
  refine ⟨by decide, by decide⟩

/-- Claim C3 (amended): for every resource whose fetch fails (with an
exception of the caught `BulkDownloaderException` class, which includes the
bounded-wait timeout), the outcome for that resource is `failedFetch` and
the submission's remaining resources are abandoned; no exception escapes,
so the failure stays submission-level and the run continues. -/
theorem c3_fetch_failure_aborts_submission
    (args : Args) (chkRes : ResTask → Bool) (hashFn : List Nat → String)
    (t : ResTask) (ts : List ResTask) (s : DState) (e : Exn)
    (hdisk : t.destination ∉ s.disk)
    (hchk : chkRes t = true)
    (hfetch : t.fetch = .error e)
    (hbulk : isBulkClass e = true) :
    processResources args chkRes hashFn (t :: ts) s
      = ⟨[.failedFetch], s, .cutShort⟩ := by
  simp [processResources, download_resource, hdisk, hchk, hfetch, hbulk]

theorem c3_fetch_failure_aborts_submission_witness :
    processResources argsPlain chkTrue hashH [taskFetchFail, taskClean]
        ⟨["y"], []⟩
      = ⟨[.failedFetch], ⟨["y"], []⟩, .cutShort⟩ :=
  c3_fetch_failure_aborts_submission argsPlain chkTrue hashH taskFetchFail
    [taskClean] ⟨["y"], []⟩ (.bulkDownloader "timed out") (by decide)
    (by decide) (by decide) (by decide)

/-! ## Hash-index / disk invariants for C6 and C7 -/

theorem mem_insertP_self (d : List String) (p : String) : p ∈ insertP d p := by
  by_cases h : p ∈ d <;> simp [insertP, h]

theorem mem_insertP_mono {d : List String} {q : String} (p : String)
    (h : q ∈ d) : q ∈ insertP d p := by
  by_cases h' : p ∈ d <;> simp [insertP, h', h]

/-- The state carried by a step result. -/
def stepState : StepResult → DState
  | .toNext _ s => s
  | .stopLoop _ s => s
  | .raised _ s => s

/-- The C6 relation between downloader states: the on-disk set only grows,
hash-index keys only get added, and any hash-index entry that is new or
changed points at an on-disk path. -/
def IndexInv (s s' : DState) : Prop :=
  (∀ q, q ∈ s.disk → q ∈ s'.disk)
  ∧ (∀ k, (lookupA s.hashIndex k).isSome = true →
      (lookupA s'.hashIndex k).isSome = true)
  ∧ (∀ k p, lookupA s'.hashIndex k = some p →
      lookupA s.hashIndex k = some p ∨ p ∈ s'.disk)

theorem IndexInv.rfl (s : DState) : IndexInv s s :=
  ⟨fun _ h => h, fun _ h => h, fun _ _ h => Or.inl h⟩

theorem IndexInv.trans {s1 s2 s3 : DState} (h12 : IndexInv s1 s2)
    (h23 : IndexInv s2 s3) : IndexInv s1 s3 := by
  refine ⟨fun q hq => h23.1 q (h12.1 q hq), fun k hk => h23.2.1 k (h12.2.1 k hk),
    fun k p hp => ?_⟩
  rcases h23.2.2 k p hp with h | h
  · rcases h12.2.2 k p h with h' | h'
    · exact Or.inl h'
    · exact Or.inr (h23.1 p h')
  · exact Or.inr h

/-- The state reached on disk-insert-only branches. -/
theorem IndexInv.insertP_only (s : DState) (p : String) :
    IndexInv s ⟨insertP s.disk p, s.hashIndex⟩ :=
  ⟨fun _ hq => mem_insertP_mono p hq, fun _ h => h, fun _ _ h => Or.inl h⟩

/-- The state reached by a successful write: disk and index both grow. -/
theorem IndexInv.write (s : DState) (h p : String) :
    IndexInv s ⟨insertP s.disk p, insertA s.hashIndex h p⟩ := by
  refine ⟨fun q hq => mem_insertP_mono p hq, fun k hk => ?_, fun k q hq => ?_⟩
  · rw [lookupA_insertA]
    by_cases hk' : h = k <;> simp [hk', hk]
  · rw [lookupA_insertA] at hq
    by_cases hk' : h = k
    · rw [if_pos hk'] at hq
      injection hq with hq
      exact Or.inr (hq ▸ mem_insertP_self s.disk p)
    · rw [if_neg hk'] at hq
      exact Or.inl hq

theorem step_IndexInv (args : Args) (chkRes : ResTask → Bool)
    (hashFn : List Nat → String) (t : ResTask) (s : DState) :
    IndexInv s (stepState (download_resource args chkRes hashFn t s)) := by
  unfold download_resource writePhase
  dsimp only
  repeat' split
  all_goals
    first
    | exact IndexInv.rfl s
    | exact IndexInv.insertP_only s t.destination
    | exact IndexInv.write s _ t.destination

theorem loop_IndexInv (args : Args) (chkRes : ResTask → Bool)
    (hashFn : List Nat → String) :
    ∀ (tasks : List ResTask) (s : DState),
      IndexInv s (processResources args chkRes hashFn tasks s).state := by
  intro tasks
  induction tasks with
  | nil => intro s; exact IndexInv.rfl s
  | cons t ts ih =>
    intro s
    have hstep := step_IndexInv args chkRes hashFn t s
    cases hdr : download_resource args chkRes hashFn t s with
    | toNext o s' =>
      rw [hdr] at hstep
      simp only [processResources, hdr]
      exact IndexInv.trans hstep (ih s')
    | stopLoop o s' =>
      rw [hdr] at hstep
      simp only [processResources, hdr]
      exact hstep
    | raised e s' =>
      rw [hdr] at hstep
      simp only [processResources, hdr]
      exact hstep

/-- Claim C6 is false on the code: with both duplicate policies off, a
second commit of the same content at a fresh path overwrites the
hash-index entry — the path first recorded for the hash is replaced. -/
theorem c6_counterexample :
    lookupA (DState.mk ["p1"] [("H", "p1")]).hashIndex "H" = some "p1"
    ∧ download_resource argsPlain chkTrue hashH
        ⟨"p2", "u", .ok [7], none, none, none, none⟩ ⟨["p1"], [("H", "p1")]⟩
        = .toNext .written ⟨["p2", "p1"], [("H", "p2")]⟩ := by
  refine ⟨by decide, by decide⟩

/-- Claim C6 (amended): throughout a run the Hash Index only grows — paths
on disk stay on disk, a hash that is present stays present — and every
entry that is new or changed since the start of the loop points at a path
that is on disk at that moment (it was inserted right after a successful
write); but when both duplicate policies are inactive, a later commit of
the same content replaces the stored path with the newer destination, so
the index maps a hash to the path that *last* produced it, not the first. -/
theorem c6_hash_index_monotone_and_on_disk (args : Args)
    (chkRes : ResTask → Bool) (hashFn : List Nat → String)
    (tasks : List ResTask) (s : DState) (k p : String)
    (hlook : lookupA (processResources args chkRes hashFn tasks s).state.hashIndex
        k = some p) :
    (∀ q, q ∈ s.disk → q ∈ (processResources args chkRes hashFn tasks s).state.disk)
    ∧ (∀ k', (lookupA s.hashIndex k').isSome = true →
        (lookupA (processResources args chkRes hashFn tasks s).state.hashIndex
          k').isSome = true)
    ∧ (lookupA s.hashIndex k = some p
        ∨ p ∈ (processResources args chkRes hashFn tasks s).state.disk) := by
  have h := loop_IndexInv args chkRes hashFn tasks s
  exact ⟨h.1, h.2.1, h.2.2 k p hlook⟩

theorem c6_hash_index_monotone_and_on_disk_witness :
    lookupA (DState.mk ["p1"] [("H", "p1")]).hashIndex "H" = some "p2"
    ∨ "p2" ∈ (processResources argsPlain chkTrue hashH
        [⟨"p2", "u", .ok [7], none, none, none, none⟩]
        ⟨["p1"], [("H", "p1")]⟩).state.disk :=
  (c6_hash_index_monotone_and_on_disk argsPlain chkTrue hashH
    [⟨"p2", "u", .ok [7], none, none, none, none⟩] ⟨["p1"], [("H", "p1")]⟩
    "H" "p2" (by decide)).2.2

/-- Claim C7: with the no-duplicates policy active, committing the same
resource bytes twice yields exactly one new file on disk across both runs
(the first run writes its destination; the second run leaves the state
untouched), the second commit's outcome is `skippedDuplicate`, and the
second run is cut short — all remaining resources of that submission are
abandoned, not just the duplicate one. -/
theorem c7_no_dupes_idempotent (args : Args) (chkRes : ResTask → Bool)
    (hashFn : List Nat → String) (s0 : DState) (b : List Nat)
    (d1 d2 u1 u2 : String) (rest : List ResTask)
    (hnd : args.noDupes = true)
    (h1 : d1 ∉ s0.disk)
    (h0 : (lookupA s0.hashIndex (hashFn b)).isSome = false)
    (hc1 : chkRes ⟨d1, u1, .ok b, none, none, none, none⟩ = true)
    (hc2 : chkRes ⟨d2, u2, .ok b, none, none, none, none⟩ = true)
    (h2 : d2 ∉ insertP s0.disk d1) :
    processResources args chkRes hashFn [⟨d1, u1, .ok b, none, none, none, none⟩] s0
      = ⟨[.written], ⟨insertP s0.disk d1, insertA s0.hashIndex (hashFn b) d1⟩,
         .ranAll⟩
    ∧ processResources args chkRes hashFn
        (⟨d2, u2, .ok b, none, none, none, none⟩ :: rest)
        ⟨insertP s0.disk d1, insertA s0.hashIndex (hashFn b) d1⟩
      = ⟨[.skippedDuplicate],
         ⟨insertP s0.disk d1, insertA s0.hashIndex (hashFn b) d1⟩, .cutShort⟩ := by
  constructor
  · simp [processResources, download_resource, writePhase, h1, hc1, h0]
  · have hl : (lookupA (insertA s0.hashIndex (hashFn b) d1) (hashFn b)).isSome
        = true := by
      rw [lookupA_insertA]
      simp
    simp [processResources, download_resource, h2, hc2, hl, hnd]

/-- Arguments with the no-duplicates policy active. -/
def argsNoDupes : Args := ⟨[], [], [], none, none, none, none, [], true, false⟩

theorem c7_no_dupes_idempotent_witness :
    processResources argsNoDupes chkTrue hashH
        [⟨"e1", "v1", .ok [5], none, none, none, none⟩] ⟨[], []⟩
      = ⟨[.written], ⟨["e1"], [("H", "e1")]⟩, .ranAll⟩
    ∧ processResources argsNoDupes chkTrue hashH
        [⟨"e2", "v2", .ok [5], none, none, none, none⟩, taskClean] ⟨["e1"], [("H", "e1")]⟩
      = ⟨[.skippedDuplicate], ⟨["e1"], [("H", "e1")]⟩, .cutShort⟩ := by
  have h := c7_no_dupes_idempotent argsNoDupes chkTrue hashH ⟨[], []⟩ [5]
    "e1" "e2" "v1" "v2" [taskClean] (by decide) (by decide) (by decide)
    (by decide) (by decide) (by decide)
  exact h

/-! ## C1: which exceptions are caught where -/

/-- The fetch either succeeded or raised something the
`except errors.BulkDownloaderException` handler catches. -/
def fetchGuarded (t : ResTask) : Bool :=
  match t.fetch with
  | .error e => isBulkClass e
  | .ok _ => true

/-- The write either succeeded or raised something the `except OSError`
handler catches. -/
def writeGuarded (t : ResTask) : Bool :=
  match t.writeExn with
  | some e => isOSClass e
  | none => true

/-- All of a task's fallible operations either succeed or fail only at the
guarded points with the exception classes those guards catch. -/
def taskGuarded (t : ResTask) : Bool :=
  t.mkdirExn.isNone && t.linkExn.isNone && t.utimeExn.isNone &&
    fetchGuarded t && writeGuarded t

/-- The extraction step either produced tasks that are guarded, or raised
something the `except errors.SiteDownloaderError` handler catches. -/
def envGuarded (env : SubEnv) : Bool :=
  match env.findResources with
  | .error e => isSiteClass e
  | .ok ts => ts.all taskGuarded

theorem step_no_raise (args : Args) (chkRes : ResTask → Bool)
    (hashFn : List Nat → String) (t : ResTask) (s : DState)
    (hmk : t.mkdirExn = none) (hlk : t.linkExn = none) (hut : t.utimeExn = none)
    (hf : fetchGuarded t = true) (hw : writeGuarded t = true) :
    ∀ e s', download_resource args chkRes hashFn t s ≠ .raised e s' := by
  intro e s'
  unfold download_resource writePhase
  dsimp only
  repeat' split
  all_goals simp_all [fetchGuarded, writeGuarded]

theorem loop_no_blew (args : Args) (chkRes : ResTask → Bool)
    (hashFn : List Nat → String) :
    ∀ (tasks : List ResTask) (s : DState), tasks.all taskGuarded = true →
      ∀ e, (processResources args chkRes hashFn tasks s).ending ≠ .blew e := by
  intro tasks
  induction tasks with
  | nil => intro s _ e; simp [processResources]
  | cons t ts ih =>
    intro s hall e
    rw [List.all_cons, Bool.and_eq_true] at hall
    obtain ⟨hgt, hall'⟩ := hall
    have hx := hgt
    unfold taskGuarded at hx
    simp only [Bool.and_eq_true, Option.isNone_iff_eq_none] at hx
    obtain ⟨⟨⟨⟨hmk, hlk⟩, hut⟩, hf⟩, hw⟩ := hx
    cases hdr : download_resource args chkRes hashFn t s with
    | toNext o s' =>
      simp only [processResources, hdr]
      exact ih s' hall' e
    | stopLoop o s' => simp [processResources, hdr]
    | raised e0 s' =>
      exact absurd hdr (step_no_raise args chkRes hashFn t s hmk hlk hut hf hw e0 s')

/-- A submission passing every filter whose URL dispatches to the
self-post strategy. -/
def subSelf : Submission :=
  ⟨"abc", "test", some "alice", 50, 1, 0,
   "https://reddit.com/r/test/comments/abc", true⟩

/-- A resource that fetches and writes cleanly but whose post-write
`os.utime` call raises an `OSError`. -/
def taskUtimeFail : ResTask :=
  ⟨"d9", "u9", .ok [3], none, none, none, some (.osError "utime failed")⟩

/-- An environment delivering exactly the `taskUtimeFail` resource. -/
def envUtimeFail : SubEnv :=
  ⟨fun _ => true, fun _ => true, .ok [taskUtimeFail], fun _ => "H"⟩

/-- Claim C1 is false on the code: the post-write `os.utime` call is outside
every `try` block, so an `OSError` raised there propagates out of
`_download_submission`, and `download` (which has no handler) aborts the
whole run — the second submission is never processed.  The final state
shows the written file on disk while the hash-index insertion of line 191
was skipped. -/
theorem c1_counterexample :
    runDownload argsPlain [(subSelf, envUtimeFail), (subSelf, envTriv)] ⟨[], []⟩
      = .error (.osError "utime failed", ⟨["d9"], []⟩) := by decide

/-- Claim C1 (amended): exceptions raised at the four guarded points are
caught and become a log entry plus a skip — `NotADownloadableLinkError`
from dispatch, `SiteDownloaderError` from extraction,
`BulkDownloaderException` from the resource fetch, `OSError` from the
destination write: whenever each fallible operation fails only at those
points with those classes, nothing propagates out of processing one
submission.  But directory creation, hard-linking and the post-write
timestamp stamping are unguarded: a failure there (for example the `os.utime`
`OSError` of the counterexample) propagates and aborts the overall run. -/
theorem c1_guarded_errors_are_caught (args : Args) (env : SubEnv)
    (sub : Submission) (s : DState) (hg : envGuarded env = true) :
    ∀ e s', download_submission args env sub s ≠ .raised e s' := by
  intro e s'
  simp only [download_submission]
  cases hfs : filter_submission args env.chkUrl sub with
  | some r => simp
  | none =>
    cases hpl : pull_lever sub.url with
    | error e0 => simp
    | ok st =>
      by_cases hdm : stratName st ∈ args.disableModule
      · simp [hdm]
      · cases hfr : env.findResources with
        | error e0 =>
          have hs : isSiteClass e0 = true := by
            unfold envGuarded at hg
            rw [hfr] at hg
            exact hg
          simp [hdm, hs]
        | ok tasks =>
          have hall : tasks.all taskGuarded = true := by
            unfold envGuarded at hg
            rw [hfr] at hg
            exact hg
          have hnb := loop_no_blew args env.chkRes env.hashFn tasks s hall
          cases hend : (processResources args env.chkRes env.hashFn tasks s).ending with
          | ranAll => simp [hdm, hend]
          | cutShort => simp [hdm, hend]
          | blew e0 => exact absurd hend (hnb e0)

theorem c1_guarded_errors_are_caught_witness :
    download_submission argsPlain envTriv subSelf ⟨[], []⟩
      ≠ .raised (.osError "boom") ⟨[], []⟩ :=
  c1_guarded_errors_are_caught argsPlain envTriv subSelf ⟨[], []⟩ (by decide)
    (.osError "boom") ⟨[], []⟩

/-- Claim C4 is false on the code: the direct-file rule is tested first, so
a URL whose sanitised form matches `reddit.com/r/...` but ends in a
non-web file extension raises `NotADownloadableLinkError` instead of
dispatching to the self-post strategy. -/
theorem c4_counterexample :
    redditSelfPat.isPrefixOf
        (sanitiseList "https://www.reddit.com/r/pics/comments/ab/cat.jpg".data)
      = true
    ∧ pull_lever "https://www.reddit.com/r/pics/comments/ab/cat.jpg"
      = .error .notADownloadableLink := by
  refine ⟨by decide, by decide⟩

/-- Claim C4 (amended): for every URL whose sanitised host+path matches the
self-post pattern `reddit.com/r/...` and does not match the direct-file
rule (a path ending in a 3-4 character extension outside the web-extension
set), dispatch selects the self-post strategy and never raises
`NoStrategyError`. -/
theorem c4_selfpost_dispatch (url : String)
    (hfile : (matchesFilePattern (sanitiseList url.data)
        && !(is_web_resource (sanitiseList url.data))) = false)
    (hpat : redditSelfPat.isPrefixOf (sanitiseList url.data) = true) :
    pull_lever url = .ok .selfPost := by
  simp only [pull_lever, hfile, hpat]
  simp

theorem c4_selfpost_dispatch_witness :
    pull_lever "https://www.reddit.com/r/test/comments/abc123"
      = .ok .selfPost :=
  c4_selfpost_dispatch "https://www.reddit.com/r/test/comments/abc123"
    (by decide) (by decide)

/-- Claim C5 is false on the code as stated: a URL ending in a web-page
extension does not raise when its sanitised form also matches the
self-post prefix — the second rule still dispatches it to the self-post
strategy. -/
theorem c5_counterexample :
    is_web_resource
        (sanitiseList "https://reddit.com/r/test/wiki/index.html".data) = true
    ∧ pull_lever "https://reddit.com/r/test/wiki/index.html"
      = .ok .selfPost := by
  refine ⟨by decide, by decide⟩

/-- Claim C5 (amended): for every URL whose sanitised host+path ends in a
web-page extension, the direct-file rule cannot fire; unless the sanitised
URL matches the self-post prefix `reddit.com/r/`, dispatch raises
`NoStrategyError` — even if the rest of the URL shape looks like a direct
file link. -/
theorem c5_web_extension_no_direct (url : String)
    (hweb : is_web_resource (sanitiseList url.data) = true)
    (hpat : redditSelfPat.isPrefixOf (sanitiseList url.data) = false) :
    pull_lever url = .error .notADownloadableLink := by
  simp only [pull_lever, hweb, hpat]
  simp

theorem c5_web_extension_no_direct_witness :
    pull_lever "https://example.com/index.html"
      = .error .notADownloadableLink :=
  c5_web_extension_no_direct "https://example.com/index.html"
    (by decide) (by decide)

/-! ## C10: `urlsplit`-based sanitisation ignores query and fragment -/

theorem notQF_false_iff (c : Char) : notQF c = false ↔ c = '?' ∨ c = '#' := by
  simp [notQF]
  tauto

theorem notQF_of_schemeChar {c : Char} (h : schemeChar c = true) :
    notQF c = true := by
  cases hq : notQF c
  · rcases (notQF_false_iff c).mp hq with rfl | rfl <;> simp [schemeChar] at h
  · rfl

theorem notQF_of_netChar {c : Char} (h : netChar c = true) : notQF c = true := by
  cases hq : notQF c
  · rcases (notQF_false_iff c).mp hq with rfl | rfl <;> simp [netChar] at h
  · rfl

theorem takeWhile_and (p q : Char → Bool) (l : List Char) :
    (l.takeWhile p).takeWhile q = l.takeWhile (fun a => p a && q a) := by
  induction l with
  | nil => rfl
  | cons c t ih =>
    by_cases hp : p c = true
    · by_cases hq : q c = true <;>
        simp [List.takeWhile_cons, hp, hq, ih]
    · simp [List.takeWhile_cons, hp, Bool.false_and]

theorem stripFragQ_eq_takeWhile (l : List Char) :
    stripFragQ l = l.takeWhile notQF := by
  rw [stripFragQ, takeWhile_and]
  have : (fun a => (a != '#') && (a != '?')) = notQF := by
    funext a
    rw [notQF, Bool.and_comm]
  rw [this]

theorem scanScheme_takeWhile (l : List Char) :
    scanScheme (l.takeWhile notQF) = (scanScheme l).map (List.takeWhile notQF) := by
  induction l with
  | nil => rfl
  | cons c t ih =>
    by_cases hc : notQF c = true
    · rw [List.takeWhile_cons_of_pos hc]
      by_cases h1 : c = ':'
      · subst h1
        simp [scanScheme]
      · by_cases h2 : schemeChar c = true
        · simp [scanScheme, h1, h2, ih]
        · simp [scanScheme, h1, h2]
    · rw [List.takeWhile_cons_of_neg (by simp [hc])]
      rcases (notQF_false_iff c).mp (by simpa using hc) with rfl | rfl <;>
        simp [scanScheme, schemeChar]

theorem splitScheme_takeWhile (l : List Char) :
    splitScheme (l.takeWhile notQF) = (splitScheme l).takeWhile notQF := by
  cases l with
  | nil => rfl
  | cons c t =>
    by_cases hc : notQF c = true
    · rw [List.takeWhile_cons_of_pos hc]
      by_cases ha : c.isAlpha
      · rw [splitScheme, splitScheme, if_pos ha, if_pos ha, scanScheme_takeWhile]
        cases hsc : scanScheme t with
        | some a => simp
        | none => simp [List.takeWhile_cons_of_pos hc]
      · rw [splitScheme, splitScheme, if_neg ha, if_neg ha,
          List.takeWhile_cons_of_pos hc]
    · rw [List.takeWhile_cons_of_neg (by simp [hc])]
      rcases (notQF_false_iff c).mp (by simpa using hc) with rfl | rfl <;>
        simp [splitScheme, List.takeWhile_cons_of_neg, hc]

theorem dropNet_takeWhile (w : List Char) :
    ((w.takeWhile notQF).dropWhile netChar).takeWhile notQF
      = (w.dropWhile netChar).takeWhile notQF := by
  induction w with
  | nil => rfl
  | cons c t ih =>
    by_cases hn : netChar c = true
    · rw [List.takeWhile_cons_of_pos (notQF_of_netChar hn),
        List.dropWhile_cons_of_pos hn, List.dropWhile_cons_of_pos hn]
      exact ih
    · by_cases hq : notQF c = true
      · rw [List.takeWhile_cons_of_pos hq,
          List.dropWhile_cons_of_neg (by simp [hn]),
          List.dropWhile_cons_of_neg (by simp [hn]),
          List.takeWhile_cons_of_pos hq, List.takeWhile_cons_of_pos hq,
          List.takeWhile_idem]
      · rw [List.takeWhile_cons_of_neg (by simp [hq]),
          List.dropWhile_cons_of_neg (by simp [hn]),
          List.takeWhile_cons_of_neg (by simp [hq])]
        rfl

theorem take_two_slash {l : List Char} (h : l.take 2 = ['/', '/']) :
    ∃ w, l = '/' :: '/' :: w := by
  cases l with
  | nil => simp at h
  | cons a l1 =>
    cases l1 with
    | nil => simp at h
    | cons b t =>
      simp [List.take] at h
      exact ⟨t, by rw [h.1, h.2]⟩

theorem takeWhile_take_two_slash (l : List Char) :
    (l.takeWhile notQF).take 2 = ['/', '/'] ↔ l.take 2 = ['/', '/'] := by
  constructor
  · intro h
    obtain ⟨w, hw⟩ := take_two_slash h
    cases l with
    | nil => simp [List.takeWhile] at hw
    | cons a l1 =>
      by_cases hqa : notQF a = true
      · rw [List.takeWhile_cons_of_pos hqa] at hw
        injection hw with h1 hw
        subst h1
        cases l1 with
        | nil => simp [List.takeWhile] at hw
        | cons b t =>
          by_cases hqb : notQF b = true
          · rw [List.takeWhile_cons_of_pos hqb] at hw
            injection hw with h2 _
            subst h2
            rfl
          · rw [List.takeWhile_cons_of_neg (by simp [hqb])] at hw
            exact absurd hw (by simp)
      · rw [List.takeWhile_cons_of_neg (by simp [hqa])] at hw
        exact absurd hw (by simp)
  · intro h
    obtain ⟨w, hw⟩ := take_two_slash h
    subst hw
    rw [List.takeWhile_cons_of_pos (by decide),
      List.takeWhile_cons_of_pos (by decide)]
    rfl

theorem notQF_and_netChar (a : Char) : (notQF a && netChar a) = netChar a := by
  cases hn : netChar a
  · simp [hn]
  · simp [hn, notQF_of_netChar hn]

theorem netlocPath_takeWhile (l : List Char) :
    netlocPath (l.takeWhile notQF) = netlocPath l := by
  rw [netlocPath, netlocPath, splitScheme_takeWhile]
  by_cases h2 : (splitScheme l).take 2 = ['/', '/']
  · rw [if_pos h2, if_pos ((takeWhile_take_two_slash (splitScheme l)).mpr h2)]
    obtain ⟨w, hw⟩ := take_two_slash h2
    rw [hw]
    rw [List.takeWhile_cons_of_pos (by decide),
      List.takeWhile_cons_of_pos (by decide)]
    simp only [List.drop_succ_cons, List.drop_zero]
    rw [Prod.mk.injEq]
    refine ⟨?_, ?_⟩
    · rw [takeWhile_and]
      have : (fun a => notQF a && netChar a) = netChar := funext notQF_and_netChar
      rw [this]
    · rw [stripFragQ_eq_takeWhile, stripFragQ_eq_takeWhile]
      exact dropNet_takeWhile w
  · rw [if_neg h2,
      if_neg (fun hx => h2 ((takeWhile_take_two_slash (splitScheme l)).mp hx))]
    rw [stripFragQ_eq_takeWhile, stripFragQ_eq_takeWhile, List.takeWhile_idem]

theorem sanitiseList_takeWhile (l : List Char) :
    sanitiseList (l.takeWhile notQF) = sanitiseList l := by
  rw [sanitiseList, sanitiseList, netlocPath_takeWhile]

/-- Claim C10: URL sanitisation keeps only `urlsplit`'s netloc and path, so
dispatch returns the same result (the same strategy, or the same raised
error) on a URL and on the same URL with its query string and fragment
(everything from the first `?` or `#`) removed — and the sanitised strings
themselves agree, so the query-string allowance in the file-extension
rule's pattern never actually sees a query. -/
theorem c10_dispatch_query_invariant (url : String) :
    sanitise_url (stripQueryFragment url) = sanitise_url url
    ∧ pull_lever (stripQueryFragment url) = pull_lever url := by
  have h : sanitiseList (stripQueryFragment url).data = sanitiseList url.data :=
    sanitiseList_takeWhile url.data
  constructor
  · rw [sanitise_url, sanitise_url, h]
  · rw [pull_lever, pull_lever]
    simp only [h]

end BDFR
